import Mathlib

/-!
Verification development for the yeastar_connector repository.

The Python sources are shallowly embedded: Python values flowing through
payload dictionaries become the `PyVal` type, Frappe documents become
association lists of fields, the database becomes an explicit list of
documents threaded through each operation, and ambient effects
(`now_datetime`, `hashlib.sha1`, `json.dumps`, collaborator DB lookups)
become an explicit `Env` record passed in.
-/

/-- Python-style dynamic value used in webhook payloads, API responses and
Frappe document fields (src/yeastar_connector/*.py operate on such values). -/
inductive PyVal where
  | none
  | str (s : String)
  | int (n : Int)
  | bool (b : Bool)
  | list (l : List PyVal)
  | dict (d : List (String × PyVal))

/-- Python truthiness (`bool(v)`): None, "", 0, False, empty list/dict are falsy. -/
def pyTruthy : PyVal → Bool
  | PyVal.none => false
  | PyVal.str s => !(s == "")
  | PyVal.int n => !(n == 0)
  | PyVal.bool b => b
  | PyVal.list l => !l.isEmpty
  | PyVal.dict d => !d.isEmpty

/-- Python `a or b`: first operand if truthy, else second. -/
def pyOr (a b : PyVal) : PyVal := if pyTruthy a then a else b

/-- Python `a or b` on strings: "" is falsy. -/
def orS (a b : String) : String := if a = "" then b else a

/-- Python `str(v)` (container rendering approximated: repr quoting of inner
strings is not reproduced; no claim depends on it). -/
def pyStr : PyVal → String
  | PyVal.none => "None"
  | PyVal.str s => s
  | PyVal.int n => toString n
  | PyVal.bool b => if b then "True" else "False"
  | PyVal.list l => "[" ++ String.intercalate ", " (l.map pyStrInner) ++ "]"
  | PyVal.dict d => "dict(" ++ String.intercalate ", " (d.map (fun kv => kv.1 ++ ": " ++ pyStrInner kv.2)) ++ ")"
where
  pyStrInner : PyVal → String
  | PyVal.none => "None"
  | PyVal.str s => s
  | PyVal.int n => toString n
  | PyVal.bool b => if b then "True" else "False"
  | PyVal.list _ => "[...]"
  | PyVal.dict _ => "dict(...)"

/-- Python's `dict.get(k)` / Frappe `doc.get(k)`: missing keys yield None. -/
def getField (fs : List (String × PyVal)) (k : String) : PyVal :=
  (List.lookup k fs).getD PyVal.none

/-- Frappe `doc.set(k, v)` on an attribute dictionary: replace the first
binding of `k`, or append one. -/
def setField : List (String × PyVal) → String → PyVal → List (String × PyVal)
  | [], k, v => [(k, v)]
  | (k1, v1) :: t, k, v => if k1 = k then (k1, v) :: t else (k1, v1) :: setField t k v

/-- Python `str.strip()` on a character list. -/
def pyStripL (l : List Char) : List Char :=
  ((l.dropWhile Char.isWhitespace).reverse.dropWhile Char.isWhitespace).reverse

/-- Python `str.strip()` on strings. -/
def stripS (s : String) : String := String.mk (pyStripL s.toList)

/-- Characters kept by `re.sub(r"[^\d+]", "", p)` in utils.normalize_phone. -/
def isDialChar (c : Char) : Bool := c.isDigit || c == '+'

/-- Embedding of `re.sub(r"[^\d+]", "", p)`. -/
def filterDial (l : List Char) : List Char := l.filter isDialChar

/-- Embedding of `re.sub(r"[^\d]", "", p)`. -/
def filterDigits (l : List Char) : List Char := l.filter Char.isDigit

/-- Embedding of `if p.startswith("00"): p = "+" + p[2:]` in normalize_phone. -/
def transform00 (p : List Char) : List Char :=
  if p.take 2 = ['0', '0'] then '+' :: p.drop 2 else p

/-- Branches of utils.normalize_phone after the 00 rewrite: leading plus keeps
plus and drops non-digits; a country-code-digit prepended form gains a plus;
otherwise one leading zero is dropped and the default code is prepended. -/
def normCoreAux (ccDigits ccFull p : List Char) : List Char :=
  if p.take 1 = ['+'] then '+' :: filterDigits (p.drop 1)
  else if ccDigits.isPrefixOf p then '+' :: p
  else ccFull ++ (if p.take 1 = ['0'] then p.drop 1 else p)

/-- Embedding of utils.normalize_phone (src/yeastar_connector/utils.py lines 7-38). -/
def normalizePhone (phone default_cc : String) : String :=
  if phone = "" then ""
  else
    String.mk (normCoreAux (filterDigits default_cc.toList) default_cc.toList
      (transform00 (filterDial (pyStripL phone.toList))))

/-- Scenario check: 0555123456 with +966 normalizes to +966555123456. -/
example : normalizePhone "0555123456" "+966" = "+966555123456" := by decide

example : normalizePhone "+966 55 512 3456" "+966" = "+966555123456" := by decide

example : normalizePhone "966555123456" "+966" = "+966555123456" := by decide

example : normalizePhone "00966555123456" "+966" = "+966555123456" := by decide

example : normalizePhone "966+55" "+966" = "+966+55" := by decide

example : normalizePhone "+966+55" "+966" = "+96655" := by decide

/-- Well-formed default country code for the amended idempotence claim: a plus
sign followed by digits only (e.g. the code's default "+966"). -/
def dcGoodB (dc : String) : Bool :=
  decide (dc.toList.take 1 = ['+']) && (dc.toList.drop 1).all Char.isDigit

/-- Input restriction for the amended idempotence claim: after dropping every
character other than digits and plus signs, no plus sign remains beyond the
first retained character. -/
def goodInputB (x : String) : Bool :=
  decide ('+' ∉ (filterDial (pyStripL x.toList)).drop 1)

theorem dial_not_ws {c : Char} (h : isDialChar c = true) : c.isWhitespace = false := by
  cases hw : c.isWhitespace with
  | false => rfl
  | true =>
    exfalso
    simp [Char.isWhitespace] at hw
    rcases hw with ((rfl | rfl) | rfl) | rfl <;> exact absurd h (by decide)

theorem digit_of_dial_ne_plus {c : Char} (h : isDialChar c = true) (hp : c ≠ '+') :
    c.isDigit = true := by
  unfold isDialChar at h
  simp at h
  rcases h with hd | rfl
  · exact hd
  · exact absurd rfl hp

theorem filterDial_dropWhile (l : List Char) :
    filterDial (l.dropWhile Char.isWhitespace) = filterDial l := by
  induction l with
  | nil => rfl
  | cons c t ih =>
    cases hw : c.isWhitespace
    · rw [List.dropWhile_cons_of_neg (by simp [hw])]
    · have hd : isDialChar c = false := by
        cases hdc : isDialChar c
        · rfl
        · rw [dial_not_ws hdc] at hw; cases hw
      rw [List.dropWhile_cons_of_pos (by simp [hw]), ih]
      simp [filterDial, List.filter_cons, hd]

theorem filterDial_pyStripL (l : List Char) : filterDial (pyStripL l) = filterDial l := by
  unfold pyStripL
  calc filterDial (((l.dropWhile Char.isWhitespace).reverse.dropWhile Char.isWhitespace).reverse)
      = (filterDial ((l.dropWhile Char.isWhitespace).reverse.dropWhile Char.isWhitespace)).reverse := by
        simp [filterDial]
    _ = (filterDial ((l.dropWhile Char.isWhitespace).reverse)).reverse := by
        rw [filterDial_dropWhile]
    _ = ((filterDial (l.dropWhile Char.isWhitespace)).reverse).reverse := by
        simp [filterDial]
    _ = filterDial (l.dropWhile Char.isWhitespace) := by simp
    _ = filterDial l := filterDial_dropWhile l

theorem transform00_cases (q : List Char) (hq : '+' ∉ q.drop 1) :
    transform00 q = q ∨ ∃ rest, transform00 q = '+' :: rest ∧ '+' ∉ rest := by
  unfold transform00
  by_cases h : q.take 2 = ['0', '0']
  · rw [if_pos h]
    right
    refine ⟨q.drop 2, rfl, fun hm => hq ?_⟩
    have h2 : q.drop 2 = (q.drop 1).drop 1 := by simp
    exact List.mem_of_mem_drop (h2 ▸ hm)
  · rw [if_neg h]
    exact Or.inl rfl

theorem transform00_dial (q : List Char) (h : ∀ c ∈ q, isDialChar c = true) :
    ∀ c ∈ transform00 q, isDialChar c = true := by
  unfold transform00
  by_cases h2 : q.take 2 = ['0', '0']
  · rw [if_pos h2]
    intro c hc
    rcases List.mem_cons.mp hc with rfl | hc'
    · decide
    · exact h c (List.mem_of_mem_drop hc')
  · rw [if_neg h2]
    exact h

theorem normCoreAux_shape
    (ds : List Char) (hds : ∀ c ∈ ds, Char.isDigit c = true)
    (p : List Char) (hdial : ∀ c ∈ p, isDialChar c = true)
    (hplus : '+' ∉ p.drop 1) :
    ∃ t, normCoreAux (filterDigits ('+' :: ds)) ('+' :: ds) p = '+' :: t ∧
      ∀ c ∈ t, Char.isDigit c = true := by
  have hccD : filterDigits ('+' :: ds) = ds := by
    unfold filterDigits
    rw [List.filter_cons]
    simp [List.filter_eq_self.mpr hds]
  unfold normCoreAux
  by_cases h1 : p.take 1 = ['+']
  · rw [if_pos h1]
    exact ⟨filterDigits (p.drop 1), rfl, fun c hc => (List.mem_filter.mp hc).2⟩
  · rw [if_neg h1]
    have hplus' : '+' ∉ p := by
      intro hmem
      cases p with
      | nil => simp at hmem
      | cons c rest =>
        rcases List.mem_cons.mp hmem with rfl | hmem'
        · exact h1 (by simp)
        · exact hplus (by simpa using hmem')
    have hdig : ∀ c ∈ p, Char.isDigit c = true := fun c hc =>
      digit_of_dial_ne_plus (hdial c hc) (fun hEq => hplus' (hEq ▸ hc))
    rw [hccD]
    by_cases h2 : ds.isPrefixOf p
    · rw [if_pos h2]
      exact ⟨p, rfl, hdig⟩
    · rw [if_neg h2]
      by_cases h3 : p.take 1 = ['0']
      · rw [if_pos h3]
        refine ⟨ds ++ p.drop 1, rfl, ?_⟩
        intro c hc
        rcases List.mem_append.mp hc with h | h
        · exact hds c h
        · exact hdig c (List.mem_of_mem_drop h)
      · rw [if_neg h3]
        refine ⟨ds ++ p, rfl, ?_⟩
        intro c hc
        rcases List.mem_append.mp hc with h | h
        · exact hds c h
        · exact hdig c h

theorem normalizePhone_fix (dc : String)
    (t : List Char) (ht : ∀ c ∈ t, Char.isDigit c = true) :
    normalizePhone (String.mk ('+' :: t)) dc = String.mk ('+' :: t) := by
  have hne : String.mk ('+' :: t) ≠ "" := by
    intro h
    have h2 : ('+' :: t : List Char) = [] := congrArg String.toList h
    exact List.cons_ne_nil _ _ h2
  unfold normalizePhone
  rw [if_neg hne]
  have h1 : (String.mk ('+' :: t)).toList = '+' :: t := rfl
  rw [h1, filterDial_pyStripL]
  have hdial : ∀ c ∈ ('+' :: t), isDialChar c = true := by
    intro c hc
    rcases List.mem_cons.mp hc with rfl | hc'
    · decide
    · simp [isDialChar, ht c hc']
  have h2 : filterDial ('+' :: t) = '+' :: t := List.filter_eq_self.mpr hdial
  rw [h2]
  have h3 : transform00 ('+' :: t) = '+' :: t := by
    unfold transform00
    have hcond : List.take 2 ('+' :: t) ≠ ['0', '0'] := by
      intro h
      injection h with h1 h2
      exact absurd h1 (by decide)
    rw [if_neg hcond]
  rw [h3]
  unfold normCoreAux
  rw [if_pos (show List.take 1 ('+' :: t) = ['+'] from rfl)]
  have h4 : ('+' :: t).drop 1 = t := rfl
  rw [h4]
  have h5 : filterDigits t = t := List.filter_eq_self.mpr ht
  rw [h5]

/-- C6 (amended): utils.normalize_phone is total by construction (the embedding
is a plain function on strings, mirroring code that can raise no exception),
and it is idempotent provided the default country code is a plus sign followed
by digits and the input contains no plus sign beyond the first retained dial
character; without these restrictions idempotence fails (see the
counterexample theorem). -/
theorem normalizePhone_total_and_idem (x dc : String)
    (hdc : dcGoodB dc = true) (hx : goodInputB x = true) :
    normalizePhone (normalizePhone x dc) dc = normalizePhone x dc := by
  have hdc1 : dc.toList.take 1 = ['+'] := of_decide_eq_true (Bool.and_elim_left hdc)
  have hds : ∀ c ∈ dc.toList.drop 1, Char.isDigit c = true := by
    have h := Bool.and_elim_right hdc
    intro c hc
    exact List.all_eq_true.mp h c hc
  have hdcl : dc.toList = '+' :: dc.toList.drop 1 := by
    conv_lhs => rw [← List.take_append_drop 1 dc.toList]
    rw [hdc1]
    rfl
  by_cases hx0 : x = ""
  · subst hx0
    rfl
  · have hqdial : ∀ c ∈ filterDial (pyStripL x.toList), isDialChar c = true :=
      fun c hc => (List.mem_filter.mp hc).2
    have hqplus : '+' ∉ (filterDial (pyStripL x.toList)).drop 1 := of_decide_eq_true hx
    have hpplus : '+' ∉ (transform00 (filterDial (pyStripL x.toList))).drop 1 := by
      rcases transform00_cases _ hqplus with h | ⟨rest, h, hr⟩
      · rw [h]; exact hqplus
      · rw [h]; exact hr
    obtain ⟨t, ht, htd⟩ := normCoreAux_shape (dc.toList.drop 1) hds
      (transform00 (filterDial (pyStripL x.toList))) (transform00_dial _ hqdial) hpplus
    have hN : normalizePhone x dc = String.mk ('+' :: t) := by
      unfold normalizePhone
      rw [if_neg hx0]
      rw [hdcl]
      exact congrArg String.mk ht
    rw [hN]
    exact normalizePhone_fix dc t htd

/-- C6 counterexample: with the code's default country code "+966",
normalize_phone is not idempotent on the input "966+55" — the first pass
returns "+966+55" (the country-code branch keeps an interior plus) while the
second pass strips it to "+96655". -/
theorem normalizePhone_not_idem_counterexample :
    normalizePhone (normalizePhone "966+55" "+966") "+966" ≠ normalizePhone "966+55" "+966" := by
  decide

/-- Witness for the amended C6 theorem at the spec scenario input. -/
theorem normalizePhone_total_and_idem_witness :
    normalizePhone (normalizePhone "0555123456" "+966") "+966" = normalizePhone "0555123456" "+966" :=
  normalizePhone_total_and_idem "0555123456" "+966" (by decide) (by decide)

/-- Fields unconditionally refreshed by the upsert merge loops (api.py line 260
and sync.py line 252): status, raw payload, last-event timestamp. -/
def isAlwaysFresh (k : String) : Bool :=
  k == "last_event_at" || k == "raw_payload" || k == "status"

/-- Python `v in (None, "", 0)` on an incoming merge value (equality-based
membership, so False also matches 0). -/
def isEmptyVal : PyVal → Bool
  | PyVal.none => true
  | PyVal.str s => s == ""
  | PyVal.int n => n == 0
  | PyVal.bool b => !b
  | _ => false

/-- Python `v in ("", 0)` on a stored value. -/
def isEmptyStr0 : PyVal → Bool
  | PyVal.str s => s == ""
  | PyVal.int n => n == 0
  | PyVal.bool b => !b
  | _ => false

/-- Embedding of `not doc.get(k) or doc.get(k) in ("", 0)`. -/
def storedEmpty (v : PyVal) : Bool := !(pyTruthy v) || isEmptyStr0 v

/-- One iteration of the merge loop shared verbatim by api._upsert_call_log
(lines 259-266) and sync.upsert_call_log (lines 251-260): always-fresh keys
are set unconditionally; otherwise the incoming value is skipped when empty,
and fills the field only when the stored value is empty. -/
def mergeField (fs : List (String × PyVal)) (k : String) (v : PyVal) : List (String × PyVal) :=
  if isAlwaysFresh k then setField fs k v
  else if isEmptyVal v then fs
  else if storedEmpty (getField fs k) then setField fs k v
  else fs

/-- The `for k, v in doc_data.items()` merge loop over an existing document. -/
def mergeExisting (fs docData : List (String × PyVal)) : List (String × PyVal) :=
  docData.foldl (fun d kv => mergeField d kv.1 kv.2) fs

theorem lookup_setField_self {fs : List (String × PyVal)} {k : String} {v : PyVal}
    (h : List.lookup k fs = some v) : setField fs k v = fs := by
  induction fs with
  | nil => simp [List.lookup] at h
  | cons kv t ih =>
    obtain ⟨k1, v1⟩ := kv
    unfold setField
    by_cases hk : k1 = k
    · subst hk
      rw [if_pos rfl]
      rw [List.lookup_cons_self] at h
      obtain rfl : v1 = v := by injection h
      rfl
    · rw [if_neg hk]
      rw [List.lookup_cons] at h
      rw [show (k == k1) = false from by simpa using fun h2 => hk h2.symm] at h
      rw [ih h]

theorem lookup_setField_ne {fs : List (String × PyVal)} {k k1 : String} {v : PyVal}
    (h : k ≠ k1) : List.lookup k (setField fs k1 v) = List.lookup k fs := by
  have hbeq : (k == k1) = false := by simpa using h
  induction fs with
  | nil => simp [setField, List.lookup, hbeq]
  | cons kv t ih =>
    obtain ⟨k2, v2⟩ := kv
    unfold setField
    by_cases hk : k2 = k1
    · subst hk
      rw [if_pos rfl]
      rw [List.lookup_cons, List.lookup_cons, hbeq]
    · rw [if_neg hk]
      rw [List.lookup_cons, List.lookup_cons]
      cases hb : (k == k2)
      · exact ih
      · rfl

theorem getField_setField_self (fs : List (String × PyVal)) (k : String) (v : PyVal) :
    getField (setField fs k v) k = v := by
  induction fs with
  | nil => simp [setField, getField, List.lookup]
  | cons kv t ih =>
    obtain ⟨k1, v1⟩ := kv
    unfold setField
    by_cases hk : k1 = k
    · subst hk
      rw [if_pos rfl]
      simp [getField]
    · rw [if_neg hk]
      unfold getField at ih ⊢
      rw [List.lookup_cons]
      rw [show (k == k1) = false from by simpa using fun h2 => hk h2.symm]
      exact ih

theorem getField_mergeField_ne (fs : List (String × PyVal)) (k k1 : String) (v : PyVal)
    (h : k ≠ k1) : getField (mergeField fs k1 v) k = getField fs k := by
  have hset : getField (setField fs k1 v) k = getField fs k := by
    unfold getField
    rw [lookup_setField_ne h]
  unfold mergeField
  split
  · exact hset
  · split
    · rfl
    · split
      · exact hset
      · rfl

theorem mergeExisting_unchanged (fs dd : List (String × PyVal)) (k : String)
    (hk : isAlwaysFresh k = false)
    (hst : storedEmpty (getField fs k) = false)
    (hdd : ∀ v, (k, v) ∈ dd → isEmptyVal v = true) :
    getField (mergeExisting fs dd) k = getField fs k := by
  induction dd generalizing fs with
  | nil => rfl
  | cons kv t ih =>
    obtain ⟨k1, v1⟩ := kv
    show getField (mergeExisting (mergeField fs k1 v1) t) k = getField fs k
    by_cases hkk : k1 = k
    · subst hkk
      have he : isEmptyVal v1 = true := hdd v1 (List.mem_cons_self _ _)
      have hstep : mergeField fs k1 v1 = fs := by
        unfold mergeField
        rw [hk]
        simp [he]
      rw [hstep]
      exact ih fs hst (fun v hv => hdd v (List.mem_cons_of_mem _ hv))
    · have hpres : getField (mergeField fs k1 v1) k = getField fs k :=
        getField_mergeField_ne fs k k1 v1 (fun h => hkk h.symm)
      rw [ih (mergeField fs k1 v1) (hpres ▸ hst) (fun v hv => hdd v (List.mem_cons_of_mem _ hv))]
      exact hpres

theorem mergeExisting_not_mem (fs dd : List (String × PyVal)) (k : String)
    (h : k ∉ dd.map Prod.fst) :
    getField (mergeExisting fs dd) k = getField fs k := by
  induction dd generalizing fs with
  | nil => rfl
  | cons kv t ih =>
    obtain ⟨k1, v1⟩ := kv
    show getField (mergeExisting (mergeField fs k1 v1) t) k = getField fs k
    have hne : k ≠ k1 := fun hEq => h (by simp [hEq])
    rw [ih (mergeField fs k1 v1) (fun hm => h (by simp [hm]))]
    exact getField_mergeField_ne fs k k1 v1 hne

theorem mergeExisting_fresh (fs dd : List (String × PyVal)) (k : String) (v : PyVal)
    (hk : isAlwaysFresh k = true)
    (hnd : (dd.map Prod.fst).Nodup)
    (hmem : (k, v) ∈ dd) :
    getField (mergeExisting fs dd) k = v := by
  induction dd generalizing fs with
  | nil => simp at hmem
  | cons kv t ih =>
    obtain ⟨k1, v1⟩ := kv
    show getField (mergeExisting (mergeField fs k1 v1) t) k = v
    have hnd2 := List.nodup_cons.mp (by simpa only [List.map_cons] using hnd)
    rcases List.mem_cons.mp hmem with hEq | hmem'
    · injection hEq with h1 h2
      subst h1
      subst h2
      rw [mergeExisting_not_mem _ _ _ hnd2.1]
      unfold mergeField
      rw [if_pos hk]
      exact getField_setField_self fs k v
    · have hne : k ≠ k1 := by
        intro hEq
        subst hEq
        exact hnd2.1 (List.mem_map_of_mem Prod.fst hmem')
      exact ih (mergeField fs k1 v1) hnd2.2 hmem'

theorem mergeExisting_self (fs dd : List (String × PyVal))
    (h : ∀ kv ∈ dd, List.lookup kv.1 fs = some kv.2) :
    mergeExisting fs dd = fs := by
  induction dd with
  | nil => rfl
  | cons kv t ih =>
    have hkv := h kv (List.mem_cons_self _ _)
    have hstep : mergeField fs kv.1 kv.2 = fs := by
      unfold mergeField
      split
      · exact lookup_setField_self hkv
      · split
        · rfl
        · split
          · exact lookup_setField_self hkv
          · rfl
    show mergeExisting (mergeField fs kv.1 kv.2) t = fs
    rw [hstep]
    exact ih (fun kv2 h2 => h kv2 (List.mem_cons_of_mem _ h2))

theorem mergeExisting_noop (fs dd : List (String × PyVal))
    (h : ∀ kv ∈ dd, List.lookup kv.1 fs = some kv.2 ∨
      (isAlwaysFresh kv.1 = false ∧
        (isEmptyVal kv.2 = true ∨ storedEmpty (getField fs kv.1) = false))) :
    mergeExisting fs dd = fs := by
  induction dd with
  | nil => rfl
  | cons kv t ih =>
    have hstep : mergeField fs kv.1 kv.2 = fs := by
      rcases h kv (List.mem_cons_self _ _) with hkv | ⟨hfr, hrest⟩
      · unfold mergeField
        split
        · exact lookup_setField_self hkv
        · split
          · rfl
          · split
            · exact lookup_setField_self hkv
            · rfl
      · unfold mergeField
        rw [hfr]
        rcases hrest with he | hs
        · simp [he]
        · cases he : isEmptyVal kv.2
          · simp [he, hs]
          · simp [he]
    show mergeExisting (mergeField fs kv.1 kv.2) t = fs
    rw [hstep]
    exact ih (fun kv2 h2 => h kv2 (List.mem_cons_of_mem _ h2))

theorem mergeExisting_key (fs dd : List (String × PyVal)) (k : String) (v : PyVal)
    (hk : isAlwaysFresh k = false)
    (hnd : (dd.map Prod.fst).Nodup)
    (hmem : (k, v) ∈ dd) :
    getField (mergeExisting fs dd) k =
      (if isEmptyVal v = false ∧ storedEmpty (getField fs k) = true
       then v else getField fs k) := by
  induction dd generalizing fs with
  | nil => simp at hmem
  | cons kv t ih =>
    obtain ⟨k1, v1⟩ := kv
    show getField (mergeExisting (mergeField fs k1 v1) t) k = _
    have hnd2 := List.nodup_cons.mp (by simpa only [List.map_cons] using hnd)
    rcases List.mem_cons.mp hmem with hEq | hmem'
    · injection hEq with h1 h2
      subst h1
      subst h2
      rw [mergeExisting_not_mem _ _ _ hnd2.1]
      unfold mergeField
      rw [hk]
      cases he : isEmptyVal v
      · cases hs : storedEmpty (getField fs k)
        · simp [he, hs]
        · simp [he, hs, getField_setField_self]
      · simp [he]
    · have hne : k ≠ k1 := by
        intro hEq
        subst hEq
        exact hnd2.1 (List.mem_map_of_mem Prod.fst hmem')
      have hpres := getField_mergeField_ne fs k k1 v1 hne
      rw [ih (mergeField fs k1 v1) hnd2.2 hmem', hpres]

/-- C1: on an existing record, the upsert merge loop (shared by
api._upsert_call_log and sync.upsert_call_log) unconditionally overwrites the
always-fresh fields (status, raw payload, last-event timestamp); every other
field is left unchanged unless the stored value is empty/zero and the incoming
value non-empty, in which case (and only then) it is filled with the incoming
value — fields with no incoming binding are untouched, and in particular any
non-always-fresh field with a non-empty stored value keeps its stored value,
whatever the incoming value. -/
theorem upsert_merge_frame (fs dd : List (String × PyVal)) (k : String)
    (hnd : (dd.map Prod.fst).Nodup) :
    (∀ v, isAlwaysFresh k = true → (k, v) ∈ dd →
      getField (mergeExisting fs dd) k = v) ∧
    (isAlwaysFresh k = false →
      (k ∉ dd.map Prod.fst → getField (mergeExisting fs dd) k = getField fs k) ∧
      (∀ v, (k, v) ∈ dd →
        getField (mergeExisting fs dd) k =
          (if isEmptyVal v = false ∧ storedEmpty (getField fs k) = true
           then v else getField fs k))) :=
  ⟨fun v hk hm => mergeExisting_fresh fs dd k v hk hnd hm,
   fun hk => ⟨fun hnm => mergeExisting_not_mem fs dd k hnm,
              fun v hm => mergeExisting_key fs dd k v hk hnd hm⟩⟩

/-- Witness for C1 at a concrete stored record and incoming event: the
non-empty from_number survives a non-empty incoming value unchanged, the
empty/zero duration is filled from the non-empty incoming value, and the
always-fresh status is overwritten. -/
theorem upsert_merge_frame_witness :
    getField (mergeExisting
        [("from_number", PyVal.str "+9665"), ("status", PyVal.str "ringing"), ("duration", PyVal.int 0)]
        [("from_number", PyVal.str "+966999"), ("status", PyVal.str "answered"), ("duration", PyVal.int 30)])
        "from_number" = PyVal.str "+9665"
    ∧ getField (mergeExisting
        [("from_number", PyVal.str "+9665"), ("status", PyVal.str "ringing"), ("duration", PyVal.int 0)]
        [("from_number", PyVal.str "+966999"), ("status", PyVal.str "answered"), ("duration", PyVal.int 30)])
        "duration" = PyVal.int 30
    ∧ getField (mergeExisting
        [("from_number", PyVal.str "+9665"), ("status", PyVal.str "ringing"), ("duration", PyVal.int 0)]
        [("from_number", PyVal.str "+966999"), ("status", PyVal.str "answered"), ("duration", PyVal.int 30)])
        "status" = PyVal.str "answered" := by
  refine ⟨?_, ?_, ?_⟩
  · exact ((upsert_merge_frame _ _ "from_number" (by decide)).2 (by decide)).2
      (PyVal.str "+966999") (List.mem_cons_self _ _)
  · exact ((upsert_merge_frame _ _ "duration" (by decide)).2 (by decide)).2
      (PyVal.int 30)
      (List.mem_cons_of_mem _ (List.mem_cons_of_mem _ (List.mem_cons_self _ _)))
  · exact (upsert_merge_frame _ _ "status" (by decide)).1 (PyVal.str "answered") (by decide)
      (List.mem_cons_of_mem _ (List.mem_cons_self _ _))

/-- One stored row of the Yeastar Call Log table: primary name plus fields. -/
structure Doc where
  name : String
  fields : List (String × PyVal)

/-- Yeastar Settings fields consumed by the embedded code paths; check fields
keep their stored integer value (0 when absent, matching
`int(getattr(settings, name, 0) or 0)`). -/
structure Settings where
  enabled : Int
  webhook_secret : String
  phone_country_code : String
  ignore_internal_calls : Int
  create_lead_if_not_found : Int
  auto_link_crm : Int

/-- Ambient collaborators of the embedded code: the clock (`now_datetime`),
hashing (`hashlib.sha1(...).hexdigest()`), JSON serialization
(`frappe.as_json` / `json.dumps`), collaborator-table lookups
(Customer/Lead/Yeastar Agent queries in utils.py and sync.try_link_crm),
schema facts (`hasattr(doc, "lead"/"customer")`) and Frappe's fresh document
naming on insert. -/
structure Env where
  now : String
  sha1hex : String → String
  jsonDumps : List (String × PyVal) → String
  customerByMobile : String → Option String
  customerByPhone : String → Option String
  leadByMobile : String → Option String
  leadByPhone : String → Option String
  agentUserByExt : String → Option String
  leadLikeBySuffix : String → Option String
  customerLikeBySuffix : String → Option String
  hasLeadField : Bool
  hasCustomerField : Bool
  newName : Nat → String
  newLeadName : Nat → String

/-- Value of a run of ASCII digits. -/
def digitsToNat (ds : List Char) : Nat := ds.foldl (fun a c => a * 10 + (c.toNat - 48)) 0

/-- Python `int(x)` on the values reaching it in sync.upsert_call_log; None on
the inputs where Python raises (the caller catches and substitutes 0). -/
def pyToInt : PyVal → Option Int
  | PyVal.int n => some n
  | PyVal.bool b => some (if b then 1 else 0)
  | PyVal.str s =>
    (match pyStripL s.toList with
     | '-' :: ds => if !ds.isEmpty && ds.all Char.isDigit then some (-(Int.ofNat (digitsToNat ds))) else Option.none
     | '+' :: ds => if !ds.isEmpty && ds.all Char.isDigit then some (Int.ofNat (digitsToNat ds)) else Option.none
     | ds => if !ds.isEmpty && ds.all Char.isDigit then some (Int.ofNat (digitsToNat ds)) else Option.none)
  | _ => Option.none

/-- Python `str.isdigit()` (ASCII digits). -/
def strIsDigit (s : String) : Bool := !s.toList.isEmpty && s.toList.all Char.isDigit

/-- Python `str.lower()` (ASCII letters, as produced by these payloads). -/
def strLower (s : String) : String := String.mk (s.toList.map Char.toLower)

/-- Models the `row.get(a) or row.get(b) or ... or dflt` alias chains: first
truthy lookup wins, else the final default. -/
def chainGet (row : List (String × PyVal)) (keys : List String) (dflt : PyVal) : PyVal :=
  match keys with
  | [] => dflt
  | k :: rest => pyOr (getField row k) (chainGet row rest dflt)

/-- Stable call id of sync.upsert_call_log lines 198-201: alias chain, else
the delimited start-src-dst fallback. -/
def syncCallId (row : List (String × PyVal)) : String :=
  let cid := stripS (pyStr (chainGet row ["call_id", "uniqueid", "id", "cdr_id", "cdrId"] (PyVal.str "")))
  if cid = "" then
    pyStr (getField row "start_time") ++ "-" ++ pyStr (getField row "src") ++ "-" ++ pyStr (getField row "dst")
  else cid

/-- Python `x or None` for the string-valued entries of the sync doc_data. -/
def strOrNone (s : String) : PyVal := if s = "" then PyVal.none else PyVal.str s

/-- doc_data built by sync.upsert_call_log lines 203-243 (insertion order of
the Python dict preserved; start/end times appended only when truthy). -/
def syncDocData (row : List (String × PyVal)) (s : Settings) (env : Env) :
    List (String × PyVal) :=
  let direction := strLower (stripS (pyStr (chainGet row ["direction", "call_direction", "type"] (PyVal.str ""))))
  let status := strLower (stripS (pyStr (chainGet row ["status", "state", "event", "call_state"] (PyVal.str ""))))
  let src := stripS (pyStr (chainGet row ["src", "caller", "caller_number", "callerNumber", "from"] (PyVal.str "")))
  let dst := stripS (pyStr (chainGet row ["dst", "callee", "callee_number", "calleeNumber", "to"] (PyVal.str "")))
  let default_cc := if s.phone_country_code = "" then "+966" else s.phone_country_code
  let src_n := normalizePhone src default_cc
  let dst_n := normalizePhone dst default_cc
  let extension := stripS (pyStr (chainGet row ["extension", "ext", "agent_ext", "agent_extension"] (PyVal.str "")))
  let start_time := chainGet row ["start_time", "startTime", "start_ts"] (getField row "startTs")
  let end_time := chainGet row ["end_time", "endTime", "end_ts"] (getField row "endTs")
  let duration := (pyToInt (chainGet row ["duration", "billsec", "talk_time", "talkTime"] (PyVal.int 0))).getD 0
  let recording_url := stripS (pyStr (chainGet row ["recording_url", "record_url", "recording", "recordingUrl"] (PyVal.str "")))
  [("call_id", PyVal.str (syncCallId row)),
   ("direction", strOrNone direction),
   ("status", strOrNone status),
   ("from_number", strOrNone src_n),
   ("to_number", strOrNone dst_n),
   ("extension", strOrNone extension),
   ("duration", if duration = 0 then PyVal.none else PyVal.int duration),
   ("recording_url", strOrNone recording_url),
   ("raw_payload", PyVal.str (env.jsonDumps row)),
   ("last_event_at", PyVal.str env.now)]
  ++ (if pyTruthy start_time then [("start_time", PyVal.str (pyStr start_time))] else [])
  ++ (if pyTruthy end_time then [("end_time", PyVal.str (pyStr end_time))] else [])

/-- Python `s[-8:]`. -/
def strTakeRight8 (s : String) : String := String.mk (s.toList.drop (s.toList.length - 8))

/-- Customer half of sync.try_link_crm (lines 290-292). -/
def tryLinkCustomer (env : Env) (d : Doc) (suffix : String) : Doc :=
  match env.customerLikeBySuffix suffix with
  | some c =>
    if env.hasCustomerField then { d with fields := setField d.fields "customer" (PyVal.str c) } else d
  | Option.none => d

/-- sync.try_link_crm lines 273-292: attach a Lead (returning early) or else a
Customer reference found by the last eight characters of the first non-empty
party number. -/
def tryLinkCrm (env : Env) (d : Doc) : Doc :=
  let number := pyOr (getField d.fields "from_number") (getField d.fields "to_number")
  if pyTruthy number then
    let suffix := strTakeRight8 (pyStr number)
    match env.leadLikeBySuffix suffix with
    | some l =>
      if env.hasLeadField then { d with fields := setField d.fields "lead" (PyVal.str l) }
      else tryLinkCustomer env d suffix
    | Option.none => tryLinkCustomer env d suffix
  else d

/-- Frappe `doc.save()` on an existing document: replace the stored row
carrying the same primary name. -/
def saveDoc : List Doc → Doc → List Doc
  | [], _ => []
  | d1 :: t, d => if d1.name = d.name then d :: t else d1 :: saveDoc t d

/-- DB filter `{"call_id": cid}` of `frappe.db.get_value("Yeastar Call Log", ...)`:
string-column equality. -/
def callIdMatches (cid : String) (d : Doc) : Bool :=
  match getField d.fields "call_id" with
  | PyVal.str s => s == cid
  | _ => false

/-- Embedding of sync.upsert_call_log (src/yeastar_connector/sync.py lines
191-270): compute the canonical doc_data, then merge into the existing record
with the same call id or insert a fresh document (CRM-linked when the
auto_link_crm flag is set). The internal-call policy gate is notably absent
from this pull-path upsert. -/
def syncUpsert (row : List (String × PyVal)) (s : Settings) (env : Env)
    (st : List Doc) : List Doc :=
  let cid := syncCallId row
  let dd := syncDocData row s env
  match st.find? (callIdMatches cid) with
  | some doc => saveDoc st { doc with fields := mergeExisting doc.fields dd }
  | Option.none =>
    let newDoc : Doc :=
      { name := env.newName st.length, fields := ("doctype", PyVal.str "Yeastar Call Log") :: dd }
    st ++ [if s.auto_link_crm ≠ 0 then tryLinkCrm env newDoc else newDoc]

theorem lookup_of_mem_nodupKeys {l : List (String × PyVal)}
    (hnd : (l.map Prod.fst).Nodup) {kv : String × PyVal} (h : kv ∈ l) :
    List.lookup kv.1 l = some kv.2 := by
  induction l with
  | nil => simp at h
  | cons a t ih =>
    obtain ⟨k1, v1⟩ := a
    have hnd2 := List.nodup_cons.mp (by simpa only [List.map_cons] using hnd)
    rcases List.mem_cons.mp h with hEq | h'
    · subst hEq
      exact List.lookup_cons_self
    · have hne' : kv.1 ≠ k1 := fun hEq2 => hnd2.1 (hEq2 ▸ List.mem_map_of_mem Prod.fst h')
      have hne : (kv.1 == k1) = false := by simpa using hne'
      rw [List.lookup_cons, hne]
      exact ih hnd2.2 h'

theorem syncDocData_keys (row : List (String × PyVal)) (s : Settings) (env : Env) :
    (syncDocData row s env).map Prod.fst =
      ["call_id", "direction", "status", "from_number", "to_number", "extension",
       "duration", "recording_url", "raw_payload", "last_event_at"]
      ++ (if pyTruthy (chainGet row ["start_time", "startTime", "start_ts"] (getField row "startTs"))
          then ["start_time"] else [])
      ++ (if pyTruthy (chainGet row ["end_time", "endTime", "end_ts"] (getField row "endTs"))
          then ["end_time"] else []) := by
  unfold syncDocData
  cases h1 : pyTruthy (chainGet row ["start_time", "startTime", "start_ts"] (getField row "startTs")) <;>
  cases h2 : pyTruthy (chainGet row ["end_time", "endTime", "end_ts"] (getField row "endTs")) <;>
    simp [h1, h2]

theorem syncDocData_keys_nodup (row : List (String × PyVal)) (s : Settings) (env : Env) :
    ((syncDocData row s env).map Prod.fst).Nodup := by
  rw [syncDocData_keys]
  split_ifs <;> decide

theorem syncDocData_no_extra (row : List (String × PyVal)) (s : Settings) (env : Env) :
    "doctype" ∉ (syncDocData row s env).map Prod.fst ∧
    "lead" ∉ (syncDocData row s env).map Prod.fst ∧
    "customer" ∉ (syncDocData row s env).map Prod.fst := by
  rw [syncDocData_keys]
  split_ifs <;> exact by decide

theorem syncDocData_call_id (row : List (String × PyVal)) (s : Settings) (env : Env) :
    ∃ t, syncDocData row s env = ("call_id", PyVal.str (syncCallId row)) :: t := by
  unfold syncDocData
  exact ⟨_, rfl⟩

theorem tryLinkCustomer_fields (env : Env) (d : Doc) (suffix k : String)
    (h2 : k ≠ "customer") :
    List.lookup k (tryLinkCustomer env d suffix).fields = List.lookup k d.fields := by
  unfold tryLinkCustomer
  split
  · split
    · exact lookup_setField_ne h2
    · rfl
  · rfl

theorem tryLinkCustomer_name (env : Env) (d : Doc) (suffix : String) :
    (tryLinkCustomer env d suffix).name = d.name := by
  unfold tryLinkCustomer
  split
  · split
    · rfl
    · rfl
  · rfl

theorem tryLinkCrm_fields (env : Env) (d : Doc) (k : String)
    (h1 : k ≠ "lead") (h2 : k ≠ "customer") :
    List.lookup k (tryLinkCrm env d).fields = List.lookup k d.fields := by
  simp only [tryLinkCrm]
  split
  · split
    · split
      · exact lookup_setField_ne h1
      · exact tryLinkCustomer_fields env d _ k h2
    · exact tryLinkCustomer_fields env d _ k h2
  · rfl

theorem tryLinkCrm_name (env : Env) (d : Doc) : (tryLinkCrm env d).name = d.name := by
  simp only [tryLinkCrm]
  split
  · split
    · split
      · rfl
      · exact tryLinkCustomer_name env d _
    · exact tryLinkCustomer_name env d _
  · rfl

theorem saveDoc_fresh (st : List Doc) (d : Doc) (h : ∀ d2 ∈ st, d2.name ≠ d.name) :
    saveDoc (st ++ [d]) d = st ++ [d] := by
  induction st with
  | nil => simp [saveDoc]
  | cons a t ih =>
    have ha : a.name ≠ d.name := h a (List.mem_cons_self _ _)
    show saveDoc (a :: (t ++ [d])) d = a :: (t ++ [d])
    unfold saveDoc
    rw [if_neg ha]
    rw [ih (fun d2 h2 => h d2 (List.mem_cons_of_mem _ h2))]

theorem syncUpsert_insert (row : List (String × PyVal)) (s : Settings) (env : Env)
    (st : List Doc)
    (hfind : st.find? (callIdMatches (syncCallId row)) = Option.none) :
    ∃ d, syncUpsert row s env st = st ++ [d] ∧
      d.name = env.newName st.length ∧
      (∀ k, k ≠ "lead" → k ≠ "customer" →
        List.lookup k d.fields =
          List.lookup k (("doctype", PyVal.str "Yeastar Call Log") :: syncDocData row s env)) := by
  simp only [syncUpsert]
  rw [hfind]
  by_cases ha : s.auto_link_crm ≠ 0
  · rw [if_pos ha]
    refine ⟨_, rfl, ?_, ?_⟩
    · rw [tryLinkCrm_name]
    · intro k hk1 hk2
      rw [tryLinkCrm_fields env _ k hk1 hk2]
  · rw [if_neg ha]
    exact ⟨_, rfl, rfl, fun k _ _ => rfl⟩

/-- Pull-path half of the idempotence claim: applying sync.upsert_call_log
twice with the same canonical event (the same row, settings and ambient
environment, the event's last-event timestamp included) over a store holding
no record for its call id yields exactly one stored record for that call id
and an identical store after the second application; the fresh-name
hypothesis mirrors Frappe's guarantee that insert allocates an unused primary
name. -/
theorem syncUpsert_idempotent (row : List (String × PyVal)) (s : Settings) (env : Env)
    (st : List Doc)
    (hid : ∀ d ∈ st, callIdMatches (syncCallId row) d = false)
    (hname : ∀ d ∈ st, d.name ≠ env.newName st.length) :
    syncUpsert row s env (syncUpsert row s env st) = syncUpsert row s env st ∧
    (syncUpsert row s env (syncUpsert row s env st)).countP
        (callIdMatches (syncCallId row)) = 1 := by
  have hfind1 : st.find? (callIdMatches (syncCallId row)) = Option.none :=
    List.find?_eq_none.mpr (fun d hd => by simp [hid d hd])
  obtain ⟨d, hst1, hdname, hdfields⟩ := syncUpsert_insert row s env st hfind1
  have hcall : List.lookup "call_id" d.fields = some (PyVal.str (syncCallId row)) := by
    rw [hdfields "call_id" (by decide) (by decide)]
    obtain ⟨t, hdd⟩ := syncDocData_call_id row s env
    rw [List.lookup_cons, show (("call_id" : String) == "doctype") = false from by decide, hdd]
    exact List.lookup_cons_self
  have hmatch : callIdMatches (syncCallId row) d = true := by
    unfold callIdMatches getField
    rw [hcall]
    simp
  have hfind2 : (st ++ [d]).find? (callIdMatches (syncCallId row)) = some d := by
    rw [List.find?_append, hfind1]
    simp [hmatch]
  have hmerge : mergeExisting d.fields (syncDocData row s env) = d.fields := by
    apply mergeExisting_self
    intro kv hkv
    have hkeymem : kv.1 ∈ (syncDocData row s env).map Prod.fst :=
      List.mem_map_of_mem Prod.fst hkv
    have hne := syncDocData_no_extra row s env
    have hk1 : kv.1 ≠ "doctype" := fun hEq => hne.1 (hEq ▸ hkeymem)
    have hk2 : kv.1 ≠ "lead" := fun hEq => hne.2.1 (hEq ▸ hkeymem)
    have hk3 : kv.1 ≠ "customer" := fun hEq => hne.2.2 (hEq ▸ hkeymem)
    rw [hdfields kv.1 hk2 hk3]
    rw [List.lookup_cons, show (kv.1 == "doctype") = false from by simpa using hk1]
    exact lookup_of_mem_nodupKeys (syncDocData_keys_nodup row s env) hkv
  have h2 : syncUpsert row s env (st ++ [d]) = saveDoc (st ++ [d]) d := by
    simp only [syncUpsert]
    rw [hfind2]
    show saveDoc (st ++ [d])
        { name := d.name, fields := mergeExisting d.fields (syncDocData row s env) }
      = saveDoc (st ++ [d]) d
    rw [hmerge]
  have hsave : saveDoc (st ++ [d]) d = st ++ [d] :=
    saveDoc_fresh st d (fun d2 hm => hdname ▸ hname d2 hm)
  constructor
  · rw [hst1, h2, hsave]
  · rw [hst1, h2, hsave, List.countP_append]
    have hc0 : st.countP (callIdMatches (syncCallId row)) = 0 :=
      List.countP_eq_zero.mpr (fun a ha => by simp [hid a ha])
    rw [hc0]
    simp [List.countP_cons, hmatch]

/-- Canonical event dictionary built by api._extract_event (lines 84-182). -/
structure EventData where
  call_id : Option String
  direction : String
  status : String
  from_no : String
  to_no : String
  extension : String
  start_time : PyVal
  end_time : PyVal
  duration : Option Int
  recording_url : PyVal

/-- api._extract_event: first-truthy alias-chain extraction per canonical
field, string-coerced, with lowercase/truncation on direction and status. -/
def extractEvent (payload : List (String × PyVal)) : EventData :=
  { call_id :=
      if pyTruthy (chainGet payload ["call_id", "callId", "unique_id", "uniqueid", "id", "cdr_id"]
          (getField payload "cdrId"))
      then some (pyStr (chainGet payload ["call_id", "callId", "unique_id", "uniqueid", "id", "cdr_id"]
          (getField payload "cdrId")))
      else Option.none
    direction := (strLower (pyStr (chainGet payload ["direction", "call_direction", "type"] (PyVal.str "")))).take 20
    status := (strLower (pyStr (chainGet payload ["status", "event", "state", "call_state"] (PyVal.str "")))).take 30
    from_no := pyStr (chainGet payload ["from", "caller", "caller_number", "callerNumber", "src"] (PyVal.str ""))
    to_no := pyStr (chainGet payload ["to", "callee", "callee_number", "calleeNumber", "dst"] (PyVal.str ""))
    extension := pyStr (chainGet payload ["extension", "ext", "agent_extension", "extension_number", "agent_ext"] (PyVal.str ""))
    start_time := chainGet payload ["start_time", "startTime", "start_ts"] (getField payload "startTs")
    end_time := chainGet payload ["end_time", "endTime", "end_ts"] (getField payload "endTs")
    duration :=
      if strIsDigit (pyStr (chainGet payload ["duration", "billsec", "talk_time"] (getField payload "talkTime")))
      then pyToInt (chainGet payload ["duration", "billsec", "talk_time"] (getField payload "talkTime"))
      else Option.none
    recording_url := chainGet payload ["recording_url", "recordingUrl", "recording", "record_url"] (PyVal.str "") }

/-- api._stable_fallback_id (lines 34-39): sha1 hex digest of the delimited
field tuple, truncated to 20 characters (the hash library lives in Env). -/
def stableFallbackId (env : Env) (data : EventData) : String :=
  (env.sha1hex (data.from_no ++ "|" ++ data.to_no ++ "|" ++ data.extension ++ "|"
    ++ data.status ++ "|" ++ pyStr data.start_time)).take 20

/-- Call id after the fallback assignment of api._upsert_call_log lines 191-192. -/
def apiCallId (env : Env) (data : EventData) : String :=
  match data.call_id with
  | some c => if c = "" then stableFallbackId env data else c
  | Option.none => stableFallbackId env data

/-- Default country code `settings.phone_country_code or "+966"`. -/
def apiCc (s : Settings) : String :=
  if s.phone_country_code = "" then "+966" else s.phone_country_code

/-- The `_looks_ext` internal-extension shape of api._upsert_call_log lines
202-204: plus signs removed, stripped, all digits, length between 2 and 6. -/
def looksExt (x : String) : Bool :=
  strIsDigit (stripS (String.mk (x.toList.filter (fun c => !(c == '+')))))
  && decide (2 ≤ (stripS (String.mk (x.toList.filter (fun c => !(c == '+'))))).length)
  && decide ((stripS (String.mk (x.toList.filter (fun c => !(c == '+'))))).length ≤ 6)

/-- Minimal lead inserted by utils.create_lead_from_phone (lines 76-84). -/
structure LeadRec where
  name : String
  lead_name : String
  mobile_no : String
  source : String

/-- utils.find_party_by_phone (lines 40-74): empty phones match nothing;
Customer by mobile_no then phone, else Lead by mobile_no then phone. The DB's
Lead table is modelled as the leads created during this run (the store's
leads list, matched by mobile_no) together with the pre-existing snapshot held
in Env, so that a lead inserted by an earlier upsert is visible to later
lookups exactly as it is in the database. -/
def findPartyByPhone (env : Env) (leads : List LeadRec) (phone : String) :
    Option String × Option String :=
  if phone = "" then (Option.none, Option.none)
  else
    match (env.customerByMobile phone).orElse (fun _ => env.customerByPhone phone) with
    | some c => (some "Customer", some c)
    | Option.none =>
      match ((leads.find? (fun l => l.mobile_no == phone)).map LeadRec.name).orElse
          (fun _ => (env.leadByMobile phone).orElse (fun _ => env.leadByPhone phone)) with
      | some l => (some "Lead", some l)
      | Option.none => (Option.none, Option.none)

/-- Store touched by the webhook path: Yeastar Call Log rows plus Lead rows. -/
structure ApiStore where
  callLogs : List Doc
  leads : List LeadRec

def optStr : Option String → PyVal
  | some s => PyVal.str s
  | Option.none => PyVal.none

def optInt : Option Int → PyVal
  | some n => PyVal.int n
  | Option.none => PyVal.none

/-- Entries of the api doc_data dict (api.py lines 233-248) preceding the
party-link pair, in their insertion order. -/
def apiDocDataPre (data : EventData) (cid from_norm to_norm : String)
    (agent_user : Option String) : List (String × PyVal) :=
  [("doctype", PyVal.str "Yeastar Call Log"),
   ("call_id", PyVal.str cid),
   ("direction", PyVal.str data.direction),
   ("status", PyVal.str data.status),
   ("from_number", PyVal.str from_norm),
   ("to_number", PyVal.str to_norm),
   ("extension", PyVal.str data.extension),
   ("agent_user", optStr agent_user)]

/-- Entries of the api doc_data dict following the party-link pair, with the
start/end times appended only when truthy (api.py lines 244-253). -/
def apiDocDataPost (data : EventData) (payload : List (String × PyVal)) (env : Env) :
    List (String × PyVal) :=
  [("duration", optInt data.duration),
   ("recording_url", data.recording_url),
   ("raw_payload", PyVal.str (env.jsonDumps payload)),
   ("last_event_at", PyVal.str env.now)]
  ++ (if pyTruthy data.start_time then [("start_time", PyVal.str (pyStr data.start_time))] else [])
  ++ (if pyTruthy data.end_time then [("end_time", PyVal.str (pyStr data.end_time))] else [])

/-- doc_data of api._upsert_call_log lines 233-253 (dict insertion order with
the linked_doctype/linked_name pair in place, start/end appended when truthy). -/
def apiDocData (data : EventData) (payload : List (String × PyVal)) (env : Env)
    (cid from_norm to_norm : String)
    (agent_user linked_doctype linked_name : Option String) : List (String × PyVal) :=
  apiDocDataPre data cid from_norm to_norm agent_user
  ++ [("linked_doctype", optStr linked_doctype), ("linked_name", optStr linked_name)]
  ++ apiDocDataPost data payload env

/-- Customer side chosen by api._upsert_call_log lines 216-219: inbound keeps
the from party, anything else the to party. -/
def apiPartyPhone (data : EventData) (s : Settings) : String :=
  if ["inbound", "incoming", "in"].contains data.direction
  then normalizePhone data.from_no (apiCc s)
  else normalizePhone data.to_no (apiCc s)

/-- Lead-creation condition of api._upsert_call_log line 223: no linked party
found and the create-lead flag set. -/
def apiMkLead (data : EventData) (s : Settings) (env : Env) (leads : List LeadRec) : Bool :=
  ((findPartyByPhone env leads (apiPartyPhone data s)).2).isNone
  && (s.create_lead_if_not_found != 0)

/-- linked_doctype after the optional lead creation (api.py lines 221-225). -/
def apiLd (data : EventData) (s : Settings) (env : Env) (leads : List LeadRec) : Option String :=
  if apiMkLead data s env leads then some "Lead"
  else (findPartyByPhone env leads (apiPartyPhone data s)).1

/-- linked_name after the optional lead creation (api.py lines 221-225). -/
def apiLn (data : EventData) (s : Settings) (env : Env) (leads : List LeadRec) : Option String :=
  if apiMkLead data s env leads then some (env.newLeadName leads.length)
  else (findPartyByPhone env leads (apiPartyPhone data s)).2

/-- The Lead table after the optional create_lead_from_phone insert. -/
def apiLeads2 (data : EventData) (s : Settings) (env : Env) (leads : List LeadRec) :
    List LeadRec :=
  if apiMkLead data s env leads
  then leads ++ [⟨env.newLeadName leads.length, apiPartyPhone data s, apiPartyPhone data s, "Phone Call"⟩]
  else leads

/-- utils.get_agent_user_by_extension (lines 86-89) as invoked at api.py 227. -/
def apiAgent (data : EventData) (env : Env) : Option String :=
  if data.extension = "" then Option.none else env.agentUserByExt data.extension

/-- The full doc_data of one api upsert run, with the party-link values
computed against the given Lead table. -/
def apiDD (data : EventData) (payload : List (String × PyVal)) (s : Settings) (env : Env)
    (leads : List LeadRec) : List (String × PyVal) :=
  apiDocData data payload env (apiCallId env data)
    (normalizePhone data.from_no (apiCc s)) (normalizePhone data.to_no (apiCc s))
    (apiAgent data env) (apiLd data s env leads) (apiLn data s env leads)

/-- Embedding of api._upsert_call_log (src/yeastar_connector/api.py lines
189-273): fallback id, phone normalization, the internal-call policy gate,
party linking with optional lead creation, agent lookup, then merge-or-insert
against the call-log store. -/
def apiUpsertCallLog (data : EventData) (payload : List (String × PyVal)) (s : Settings)
    (env : Env) (st : ApiStore) : Option String × ApiStore :=
  if (s.ignore_internal_calls != 0)
     && looksExt (normalizePhone data.from_no (apiCc s))
     && looksExt (normalizePhone data.to_no (apiCc s))
  then (Option.none, st)
  else
    match st.callLogs.find? (callIdMatches (apiCallId env data)) with
    | some doc =>
      (some doc.name,
       ⟨saveDoc st.callLogs { doc with fields := mergeExisting doc.fields (apiDD data payload s env st.leads) },
        apiLeads2 data s env st.leads⟩)
    | Option.none =>
      (some (env.newName st.callLogs.length),
       ⟨st.callLogs ++ [⟨env.newName st.callLogs.length, apiDD data payload s env st.leads⟩],
        apiLeads2 data s env st.leads⟩)

/-- Inbound webhook request: raw body text, its JSON parse result (the json
library is a collaborator), and the two secret headers (absent modelled ""). -/
structure WebhookReq where
  body : String
  bodyJson : Option PyVal
  hdrYeastar : String
  hdrWebhook : String

/-- The two rejection modes of api._require_secret: `frappe.throw` when no
secret is configured, and on mismatch. -/
inductive PermErr where
  | secretNotSet
  | secretMismatch
deriving DecidableEq

/-- First non-empty credential candidate of api._require_secret lines 63-67:
header X-Yeastar-Secret, header X-Webhook-Secret, then body secret keys. -/
def incomingSecret (req : WebhookReq) (payload : List (String × PyVal)) : String :=
  orS (stripS req.hdrYeastar)
    (orS (stripS req.hdrWebhook)
      (stripS (pyStr (pyOr (getField payload "secret")
        (pyOr (getField payload "webhook_secret") (PyVal.str ""))))))

/-- api._require_secret lines 46-77: an unset secret throws PermissionError;
otherwise the request is rejected exactly when the first non-empty candidate
differs from the configured secret. -/
def requireSecret (s : Settings) (req : WebhookReq) (payload : List (String × PyVal)) :
    Except PermErr Unit :=
  if stripS s.webhook_secret = "" then Except.error PermErr.secretNotSet
  else if incomingSecret req payload = stripS s.webhook_secret then Except.ok ()
  else Except.error PermErr.secretMismatch

/-- Webhook response dictionary. -/
structure WebhookResp where
  ok : Bool
  call_log : Option String
  message : Option String
deriving DecidableEq

/-- Payload decoding of api.webhook lines 297-305: empty body defaults to the
empty JSON object text, dict payloads pass through, non-dict JSON is wrapped
under "payload", a parse failure wraps the raw text under "raw". -/
def parsePayload (req : WebhookReq) : List (String × PyVal) :=
  match req.bodyJson with
  | some (PyVal.dict d) => d
  | some v => [("payload", v)]
  | Option.none => [("raw", PyVal.str (if req.body = "" then "\x7b\x7d" else req.body))]

/-- Embedding of api.webhook (src/yeastar_connector/api.py lines 280-319):
disabled connector short-circuits, then secret validation, then extraction and
upsert. A `frappe.throw` surfaces as `Except.error` with the store unchanged. -/
def webhook (s : Settings) (env : Env) (req : WebhookReq) (st : ApiStore) :
    Except PermErr WebhookResp × ApiStore :=
  if s.enabled = 0 then
    (Except.ok ⟨false, Option.none, some "Yeastar Connector disabled"⟩, st)
  else
    match requireSecret s req (parsePayload req) with
    | Except.error e => (Except.error e, st)
    | Except.ok _ =>
      (Except.ok ⟨true, (apiUpsertCallLog (extractEvent (parsePayload req)) (parsePayload req) s env st).1,
        Option.none⟩,
       (apiUpsertCallLog (extractEvent (parsePayload req)) (parsePayload req) s env st).2)

/-- Concrete environment used to instantiate witnesses: empty collaborator
tables, fixed clock, trivial hash and JSON rendering, sequential names. -/
def defaultEnv : Env :=
  { now := "2026-01-01 00:00:00"
    sha1hex := fun _ => "0000000000000000000000000000000000000000"
    jsonDumps := fun _ => "\x7b\x7d"
    customerByMobile := fun _ => Option.none
    customerByPhone := fun _ => Option.none
    leadByMobile := fun _ => Option.none
    leadByPhone := fun _ => Option.none
    agentUserByExt := fun _ => Option.none
    leadLikeBySuffix := fun _ => Option.none
    customerLikeBySuffix := fun _ => Option.none
    hasLeadField := false
    hasCustomerField := false
    newName := fun n => "cl-" ++ toString n
    newLeadName := fun n => "lead-" ++ toString n }

/-- C7 counterexample: sync.upsert_call_log applies no internal-call gate.
With the ignore-internal flag set and a pull row from 201 to 205 over an empty
store, a record is persisted (the store grows to one row), contradicting the
claim for the pull-path upsert it names. -/
theorem syncUpsert_internal_persisted_counterexample :
    (syncUpsert [("src", PyVal.str "201"), ("dst", PyVal.str "205")]
        ⟨1, "", "", 1, 0, 0⟩ defaultEnv []).length = 1 := by
  rfl

/-- C7 (amended): only the webhook-path upsert enforces the internal-call
policy: while the ignore-internal-calls flag is set and both normalized
endpoints match the internal-extension shape, api._upsert_call_log skips
persistence, reporting the skip as a None name with the store untouched; the
pull-path sync.upsert_call_log has no such gate and persists the event. In
particular a webhook delivery with from "201" and to "205" produces no stored
record (witness). -/
theorem apiUpsert_skips_internal (data : EventData) (payload : List (String × PyVal))
    (s : Settings) (env : Env) (st : ApiStore)
    (hflag : s.ignore_internal_calls ≠ 0)
    (hf : looksExt (normalizePhone data.from_no (apiCc s)) = true)
    (ht : looksExt (normalizePhone data.to_no (apiCc s)) = true) :
    apiUpsertCallLog data payload s env st = (Option.none, st) := by
  have hcond : ((s.ignore_internal_calls != 0)
      && looksExt (normalizePhone data.from_no (apiCc s))
      && looksExt (normalizePhone data.to_no (apiCc s))) = true := by
    rw [hf, ht]
    simp [hflag]
  unfold apiUpsertCallLog
  rw [if_pos hcond]

/-- Witness for the amended C7 at the spec scenario: webhook event from 201 to
205 with the policy enabled is skipped and the store stays empty. -/
theorem apiUpsert_skips_internal_witness :
    apiUpsertCallLog
        (extractEvent [("call_id", PyVal.str "c1"), ("from", PyVal.str "201"), ("to", PyVal.str "205")])
        [("call_id", PyVal.str "c1"), ("from", PyVal.str "201"), ("to", PyVal.str "205")]
        ⟨1, "", "", 1, 0, 0⟩ defaultEnv ⟨[], []⟩
      = (Option.none, ⟨[], []⟩) :=
  apiUpsert_skips_internal _ _ _ _ _ (by decide) (by decide) (by decide)

/-- C10: when the connector's enabled flag is falsy, the webhook endpoint
immediately returns ok false with the disabled message and the store is
returned unchanged; the equality holds for every request, secret
configuration and store, so no secret validation, payload extraction or
upsert influences the outcome. -/
theorem webhook_disabled_noop (s : Settings) (env : Env) (req : WebhookReq) (st : ApiStore)
    (h : s.enabled = 0) :
    webhook s env req st
      = (Except.ok ⟨false, Option.none, some "Yeastar Connector disabled"⟩, st) := by
  unfold webhook
  rw [if_pos h]

/-- Witness for C10 at a concrete disabled configuration. -/
theorem webhook_disabled_noop_witness :
    webhook ⟨0, "tok", "", 0, 0, 0⟩ defaultEnv ⟨"", some (PyVal.dict []), "", ""⟩ ⟨[], []⟩
      = (Except.ok ⟨false, Option.none, some "Yeastar Connector disabled"⟩, ⟨[], []⟩) :=
  webhook_disabled_noop _ _ _ _ rfl

/-- C4 counterexample: with the connector enabled and no webhook secret
configured, the webhook rejects the request with the PermissionError raised by
_require_secret instead of accepting it and merely logging — refuting the
claim that an absent secret means every request is accepted with ok true. -/
theorem webhook_no_secret_rejected_counterexample :
    webhook ⟨1, "", "", 0, 0, 0⟩ defaultEnv ⟨"\x7b\x7d", some (PyVal.dict []), "", ""⟩ ⟨[], []⟩
      = (Except.error PermErr.secretNotSet, ⟨[], []⟩) := by
  rfl

/-- C4 (amended): with the connector enabled, an unconfigured (empty) webhook
secret makes the endpoint reject every request with a permission error and
leave the store untouched; when a secret is configured, the request is
rejected exactly when the first non-empty candidate among the two headers and
the body keys differs from it, and otherwise processed through extraction and
upsert with an ok true reply. -/
theorem webhook_secret_policy (s : Settings) (env : Env) (req : WebhookReq) (st : ApiStore)
    (hen : s.enabled ≠ 0) :
    (stripS s.webhook_secret = "" →
      webhook s env req st = (Except.error PermErr.secretNotSet, st)) ∧
    (stripS s.webhook_secret ≠ "" →
      (incomingSecret req (parsePayload req) ≠ stripS s.webhook_secret →
        webhook s env req st = (Except.error PermErr.secretMismatch, st)) ∧
      (incomingSecret req (parsePayload req) = stripS s.webhook_secret →
        webhook s env req st
          = (Except.ok ⟨true,
              (apiUpsertCallLog (extractEvent (parsePayload req)) (parsePayload req) s env st).1,
              Option.none⟩,
             (apiUpsertCallLog (extractEvent (parsePayload req)) (parsePayload req) s env st).2))) := by
  have hne : ¬ (s.enabled = 0) := hen
  refine ⟨?_, fun hnonempty => ⟨?_, ?_⟩⟩
  · intro hempty
    unfold webhook
    rw [if_neg hne]
    unfold requireSecret
    rw [if_pos hempty]
  · intro hmis
    unfold webhook
    rw [if_neg hne]
    unfold requireSecret
    rw [if_neg (by exact fun h => hnonempty h : ¬ (stripS s.webhook_secret = "")), if_neg hmis]
  · intro hmat
    unfold webhook
    rw [if_neg hne]
    unfold requireSecret
    rw [if_neg (by exact fun h => hnonempty h : ¬ (stripS s.webhook_secret = "")), if_pos hmat]

/-- Witness for the amended C4: configured secret "tok", mismatching header
value, request rejected with the mismatch error and the store untouched. -/
theorem webhook_secret_policy_witness :
    webhook ⟨1, "tok", "", 0, 0, 0⟩ defaultEnv ⟨"\x7b\x7d", some (PyVal.dict []), "wrong", ""⟩ ⟨[], []⟩
      = (Except.error PermErr.secretMismatch, ⟨[], []⟩) :=
  ((webhook_secret_policy _ _ _ _ (by decide)).2 (by decide)).1 (by decide)

/-- Inner step of sync._extract_items (lines 131-139): a list value under an
outer candidate key is returned; a dict value is searched one level deeper for
the first list under the inner key candidates. -/
def tryItemsKey (d : List (String × PyVal)) (k : String) : Option (List PyVal) :=
  match getField d k with
  | PyVal.list l => some l
  | PyVal.dict d2 =>
    ["items", "list", "records", "data"].findSome? (fun k2 =>
      match getField d2 k2 with
      | PyVal.list l2 => some l2
      | _ => Option.none)
  | _ => Option.none

/-- sync._extract_items (lines 123-140): non-dict payloads yield no items;
otherwise the outer candidate keys are tried in a fixed order. -/
def extractItems (payload : PyVal) : List PyVal :=
  match payload with
  | PyVal.dict d =>
    (["data", "items", "list", "records", "result"].findSome? (tryItemsKey d)).getD []
  | _ => []

/-- sync._has_more (lines 143-159): an integer-typed total field (a Python
bool also passes isinstance int) drives `page * page_size < total`; with no
total field, a full page means more data is assumed. -/
def hasMore (payload : PyVal) (page pageSize got : Nat) : Bool :=
  match payload with
  | PyVal.dict d =>
    match ["total", "total_count", "count"].findSome? (fun k =>
        match getField d k with
        | PyVal.int n => some n
        | PyVal.bool b => some (if b then (1 : Int) else 0)
        | _ => Option.none) with
    | some t => decide (((page : Int) * pageSize) < t)
    | Option.none => decide (got ≥ pageSize)
  | _ => false

/-- The `while True` page loop of sync.sync_call_logs (lines 105-117), with
explicit fuel: yields the number of page requests issued and the final store
when the loop exits, None when the fuel runs out with the loop still going
(the source has no page ceiling). Every fetched item is upserted as in the
source before the continuation check. -/
def syncCallLogsLoop (fetch : Nat → PyVal) (s : Settings) (env : Env) (pageSize : Nat) :
    Nat → Nat → List Doc → Option (Nat × List Doc)
  | 0, _, _ => Option.none
  | fuel + 1, page, st =>
    if (extractItems (fetch page)).isEmpty then some (1, st)
    else
      if hasMore (fetch page) page pageSize (extractItems (fetch page)).length then
        match syncCallLogsLoop fetch s env pageSize fuel (page + 1)
            ((extractItems (fetch page)).foldl (fun acc it =>
              syncUpsert (match it with | PyVal.dict d => d | _ => []) s env acc) st) with
        | some (m, st3) => some (m + 1, st3)
        | Option.none => Option.none
      else
        some (1, (extractItems (fetch page)).foldl (fun acc it =>
          syncUpsert (match it with | PyVal.dict d => d | _ => []) s env acc) st)

/-- C3: the pagination loop has no page-count ceiling. Against an upstream
that answers every request with a full page of items and no total-count field,
sync_call_logs never leaves its `while True` loop: the fuel-indexed embedding
returns None for every fuel amount, starting page and store, under every
settings/environment — the code diverges where the spec demands a bounded
number of iterations enforced by a hard ceiling. -/
theorem syncCallLogsLoop_no_ceiling (s : Settings) (env : Env) :
    ∀ (fuel page : Nat) (st : List Doc),
      syncCallLogsLoop
        (fun _ => PyVal.dict [("data", PyVal.list (List.replicate 100 (PyVal.dict [])))])
        s env 100 fuel page st = Option.none := by
  intro fuel
  induction fuel with
  | zero => intro page st; rfl
  | succ n ih =>
    intro page st
    have hrec := ih (page + 1)
      ((extractItems (PyVal.dict [("data", PyVal.list (List.replicate 100 (PyVal.dict [])))])).foldl
        (fun acc it => syncUpsert (match it with | PyVal.dict d => d | _ => []) s env acc) st)
    calc syncCallLogsLoop
          (fun _ => PyVal.dict [("data", PyVal.list (List.replicate 100 (PyVal.dict [])))])
          s env 100 (n + 1) page st
        = (match syncCallLogsLoop
              (fun _ => PyVal.dict [("data", PyVal.list (List.replicate 100 (PyVal.dict [])))])
              s env 100 n (page + 1)
              ((extractItems (PyVal.dict [("data", PyVal.list (List.replicate 100 (PyVal.dict [])))])).foldl
                (fun acc it => syncUpsert (match it with | PyVal.dict d => d | _ => []) s env acc) st) with
            | some (m, st3) => some (m + 1, st3)
            | Option.none => Option.none) := rfl
      _ = Option.none := by rw [hrec]

/-- Upstream of the spec's pagination scenario: page 1 carries a full page of
100 records, page 2 carries 40, later pages are empty, no total field. -/
def scenarioFetch : Nat → PyVal := fun page =>
  if page = 1 then PyVal.dict [("data", PyVal.list (List.replicate 100 (PyVal.dict [])))]
  else if page = 2 then PyVal.dict [("data", PyVal.list (List.replicate 40 (PyVal.dict [])))]
  else PyVal.dict [("data", PyVal.list [])]

/-- C8 counterexample: on the spec scenario (full first page, 40-record second
page, no total field, page size 100) the loop issues exactly 2 page requests —
the partial second page already ends it — not the 3 the claim states. -/
theorem syncPages_scenario_counterexample :
    (syncCallLogsLoop scenarioFetch ⟨1, "", "", 0, 0, 0⟩ defaultEnv 100 10 1 []).map Prod.fst
      ≠ some 3 := by
  have h : (syncCallLogsLoop scenarioFetch ⟨1, "", "", 0, 0, 0⟩ defaultEnv 100 10 1 []).map Prod.fst
      = some 2 := rfl
  rw [h]
  decide

/-- C8 (amended): on the scenario upstream (page 1 full with 100 records,
page 2 with 40, no total field, page size 100) the fetcher issues exactly 2
page requests: the second page returns fewer than page_size items, so the
fallback completeness check ends the loop without a third request; this holds
for every store, settings, environment and remaining fuel. -/
theorem syncPages_scenario_requests (s : Settings) (env : Env) (st : List Doc) (fuel : Nat) :
    (syncCallLogsLoop scenarioFetch s env 100 (fuel + 2) 1 st).map Prod.fst = some 2 := rfl

/-- One HTTP response as the requests library presents it to the client code:
status, body text, and the body's JSON parse outcome (`resp.json()` raises on
unparseable bodies, modelled as the error case). None models a transport-level
failure of the request call itself. -/
structure HttpResponse where
  status : Nat
  text : String
  json : Except Unit PyVal

/-- Outcome of YeastarClient.get/post: the uniform YeastarAPIError on
transport failure or non-success status, the JSON decode exception escaping
`resp.json()`, or the parsed value. -/
inductive GatewayResult where
  | transportErr
  | requestErr
  | jsonDecodeErr
  | ok (v : PyVal)

/-- Embedding of YeastarClient.get (src/yeastar_connector/yeastar_client.py
lines 232-244, identically lines 143-155 of the nested copy):
`return resp.json() if resp.text else {}` after the status check. -/
def clientGet (out : Option HttpResponse) : GatewayResult :=
  match out with
  | Option.none => GatewayResult.transportErr
  | some r =>
    if r.status ≥ 300 then GatewayResult.requestErr
    else if r.text = "" then GatewayResult.ok (PyVal.dict [])
    else
      match r.json with
      | Except.ok v => GatewayResult.ok v
      | Except.error _ => GatewayResult.jsonDecodeErr

/-- Embedding of YeastarClient.post (src/yeastar_connector/yeastar_client.py
lines 246-258, identically lines 157-169 of the nested copy). -/
def clientPost (out : Option HttpResponse) : GatewayResult :=
  match out with
  | Option.none => GatewayResult.transportErr
  | some r =>
    if r.status ≥ 300 then GatewayResult.requestErr
    else if r.text = "" then GatewayResult.ok (PyVal.dict [])
    else
      match r.json with
      | Except.ok v => GatewayResult.ok v
      | Except.error _ => GatewayResult.jsonDecodeErr

/-- C5 counterexample: a success-status response whose non-empty body is not
JSON makes both get and post raise the JSON decode exception out of
`resp.json()` instead of returning an empty mapping. -/
theorem clientGetPost_nonjson_raises_counterexample :
    clientGet (some ⟨200, "hello", Except.error ()⟩) = GatewayResult.jsonDecodeErr ∧
    clientPost (some ⟨200, "hello", Except.error ()⟩) = GatewayResult.jsonDecodeErr :=
  ⟨rfl, rfl⟩

/-- C5 (amended): on a success-status response, an empty body yields the empty
mapping from both get and post, a parseable body yields its parsed value, and
a non-empty unparseable body raises the JSON decode exception rather than
yielding an empty mapping. -/
theorem clientGetPost_body_policy (r : HttpResponse) (hs : r.status < 300) :
    (r.text = "" →
      clientGet (some r) = GatewayResult.ok (PyVal.dict []) ∧
      clientPost (some r) = GatewayResult.ok (PyVal.dict [])) ∧
    (∀ v, r.text ≠ "" → r.json = Except.ok v →
      clientGet (some r) = GatewayResult.ok v ∧
      clientPost (some r) = GatewayResult.ok v) ∧
    (∀ e, r.text ≠ "" → r.json = Except.error e →
      clientGet (some r) = GatewayResult.jsonDecodeErr ∧
      clientPost (some r) = GatewayResult.jsonDecodeErr) := by
  have hns : ¬ (r.status ≥ 300) := by omega
  refine ⟨?_, ?_, ?_⟩
  · intro hempty
    constructor <;> · simp only [clientGet, clientPost]; rw [if_neg hns, if_pos hempty]
  · intro v hne hjson
    constructor <;> · simp only [clientGet, clientPost]; rw [if_neg hns, if_neg hne, hjson]
  · intro e hne hjson
    constructor <;> · simp only [clientGet, clientPost]; rw [if_neg hns, if_neg hne, hjson]

/-- Witness for the amended C5 at a concrete empty-body success response. -/
theorem clientGetPost_body_policy_witness :
    clientGet (some ⟨200, "", Except.error ()⟩) = GatewayResult.ok (PyVal.dict []) ∧
    clientPost (some ⟨200, "", Except.error ()⟩) = GatewayResult.ok (PyVal.dict []) :=
  (clientGetPost_body_policy ⟨200, "", Except.error ()⟩ (by decide)).1 rfl

theorem storedEmpty_str_of_ne {x : String} (h : x ≠ "") :
    storedEmpty (PyVal.str x) = false := by
  have hb : (x == "") = false := by simpa using h
  simp [storedEmpty, pyTruthy, isEmptyStr0, hb]

theorem apiDocData_map_fst (data : EventData) (payload : List (String × PyVal)) (env : Env)
    (cid fn tn : String) (ag ld ln : Option String) :
    (apiDocData data payload env cid fn tn ag ld ln).map Prod.fst =
      ["doctype", "call_id", "direction", "status", "from_number", "to_number",
       "extension", "agent_user", "linked_doctype", "linked_name",
       "duration", "recording_url", "raw_payload", "last_event_at"]
      ++ (if pyTruthy data.start_time then ["start_time"] else [])
      ++ (if pyTruthy data.end_time then ["end_time"] else []) := by
  unfold apiDocData apiDocDataPre apiDocDataPost
  cases h1 : pyTruthy data.start_time <;> cases h2 : pyTruthy data.end_time <;> simp [h1, h2]

theorem apiDocData_keys_nodup (data : EventData) (payload : List (String × PyVal)) (env : Env)
    (cid fn tn : String) (ag ld ln : Option String) :
    ((apiDocData data payload env cid fn tn ag ld ln).map Prod.fst).Nodup := by
  rw [apiDocData_map_fst]
  split_ifs <;> decide

theorem apiDocData_noop (data : EventData) (payload : List (String × PyVal)) (env : Env)
    (cid fn tn : String) (ag ld1 ln1 ld2 ln2 : Option String)
    (hld : storedEmpty (optStr ld1) = false ∨ ld2 = ld1)
    (hln : storedEmpty (optStr ln1) = false ∨ ln2 = ln1) :
    mergeExisting (apiDocData data payload env cid fn tn ag ld1 ln1)
      (apiDocData data payload env cid fn tn ag ld2 ln2)
      = apiDocData data payload env cid fn tn ag ld1 ln1 := by
  have hnd := apiDocData_keys_nodup data payload env cid fn tn ag ld1 ln1
  apply mergeExisting_noop
  intro kv hkv
  have hld1mem : ("linked_doctype", optStr ld1) ∈ apiDocData data payload env cid fn tn ag ld1 ln1 := by
    unfold apiDocData
    exact List.mem_append.mpr (Or.inl (List.mem_append.mpr (Or.inr (List.mem_cons_self _ _))))
  have hln1mem : ("linked_name", optStr ln1) ∈ apiDocData data payload env cid fn tn ag ld1 ln1 := by
    unfold apiDocData
    exact List.mem_append.mpr (Or.inl (List.mem_append.mpr
      (Or.inr (List.mem_cons_of_mem _ (List.mem_cons_self _ _)))))
  have hsplit : kv ∈ apiDocDataPre data cid fn tn ag ∨
      kv = ("linked_doctype", optStr ld2) ∨ kv = ("linked_name", optStr ln2) ∨
      kv ∈ apiDocDataPost data payload env := by
    unfold apiDocData at hkv
    rcases List.mem_append.mp hkv with h12 | hpost
    · rcases List.mem_append.mp h12 with hpre | hlink
      · exact Or.inl hpre
      · rcases List.mem_cons.mp hlink with hEq1 | h2
        · exact Or.inr (Or.inl hEq1)
        · rcases List.mem_cons.mp h2 with hEq2 | h3
          · exact Or.inr (Or.inr (Or.inl hEq2))
          · simp at h3
    · exact Or.inr (Or.inr (Or.inr hpost))
  rcases hsplit with hpre | hEq1 | hEq2 | hpost
  · refine Or.inl (lookup_of_mem_nodupKeys hnd ?_)
    unfold apiDocData
    exact List.mem_append.mpr (Or.inl (List.mem_append.mpr (Or.inl hpre)))
  · subst hEq1
    have hlook1 := lookup_of_mem_nodupKeys hnd hld1mem
    rcases hld with hse | rfl
    · refine Or.inr ⟨rfl, Or.inr ?_⟩
      show storedEmpty (getField (apiDocData data payload env cid fn tn ag ld1 ln1) "linked_doctype") = false
      unfold getField
      rw [hlook1]
      exact hse
    · exact Or.inl hlook1
  · subst hEq2
    have hlook1 := lookup_of_mem_nodupKeys hnd hln1mem
    rcases hln with hse | rfl
    · refine Or.inr ⟨rfl, Or.inr ?_⟩
      show storedEmpty (getField (apiDocData data payload env cid fn tn ag ld1 ln1) "linked_name") = false
      unfold getField
      rw [hlook1]
      exact hse
    · exact Or.inl hlook1
  · refine Or.inl (lookup_of_mem_nodupKeys hnd ?_)
    unfold apiDocData
    exact List.mem_append.mpr (Or.inr hpost)

theorem apiUpsert_gate_eq (data : EventData) (payload : List (String × PyVal))
    (s : Settings) (env : Env) (st : ApiStore)
    (h : ((s.ignore_internal_calls != 0)
      && looksExt (normalizePhone data.from_no (apiCc s))
      && looksExt (normalizePhone data.to_no (apiCc s))) = true) :
    apiUpsertCallLog data payload s env st = (Option.none, st) := by
  unfold apiUpsertCallLog
  rw [if_pos h]

theorem apiUpsert_ins (data : EventData) (payload : List (String × PyVal))
    (s : Settings) (env : Env) (st : ApiStore)
    (hg : ((s.ignore_internal_calls != 0)
      && looksExt (normalizePhone data.from_no (apiCc s))
      && looksExt (normalizePhone data.to_no (apiCc s))) = false)
    (hfind : st.callLogs.find? (callIdMatches (apiCallId env data)) = Option.none) :
    apiUpsertCallLog data payload s env st =
      (some (env.newName st.callLogs.length),
       ⟨st.callLogs ++ [⟨env.newName st.callLogs.length, apiDD data payload s env st.leads⟩],
        apiLeads2 data s env st.leads⟩) := by
  unfold apiUpsertCallLog
  rw [if_neg (by simp [hg]), hfind]

theorem apiUpsert_mrg (data : EventData) (payload : List (String × PyVal))
    (s : Settings) (env : Env) (st : ApiStore) (doc : Doc)
    (hg : ((s.ignore_internal_calls != 0)
      && looksExt (normalizePhone data.from_no (apiCc s))
      && looksExt (normalizePhone data.to_no (apiCc s))) = false)
    (hfind : st.callLogs.find? (callIdMatches (apiCallId env data)) = some doc) :
    apiUpsertCallLog data payload s env st =
      (some doc.name,
       ⟨saveDoc st.callLogs { doc with fields := mergeExisting doc.fields (apiDD data payload s env st.leads) },
        apiLeads2 data s env st.leads⟩) := by
  unfold apiUpsertCallLog
  rw [if_neg (by simp [hg]), hfind]

theorem apiLeads2_of_not_mkLead (data : EventData) (s : Settings) (env : Env)
    (leads : List LeadRec) (h : apiMkLead data s env leads = false) :
    apiLeads2 data s env leads = leads := by
  unfold apiLeads2
  simp [h]

theorem apiLd_of_mkLead (data : EventData) (s : Settings) (env : Env)
    (leads : List LeadRec) (h : apiMkLead data s env leads = true) :
    apiLd data s env leads = some "Lead" := by
  unfold apiLd
  simp [h]

theorem apiLn_of_mkLead (data : EventData) (s : Settings) (env : Env)
    (leads : List LeadRec) (h : apiMkLead data s env leads = true) :
    apiLn data s env leads = some (env.newLeadName leads.length) := by
  unfold apiLn
  simp [h]

theorem apiDD_call_id (data : EventData) (payload : List (String × PyVal))
    (s : Settings) (env : Env) (leads : List LeadRec) :
    List.lookup "call_id" (apiDD data payload s env leads)
      = some (PyVal.str (apiCallId env data)) := rfl

theorem apiUpsert_idem_aux (data : EventData) (payload : List (String × PyVal))
    (s : Settings) (env : Env) (st : ApiStore)
    (hg : ((s.ignore_internal_calls != 0)
      && looksExt (normalizePhone data.from_no (apiCc s))
      && looksExt (normalizePhone data.to_no (apiCc s))) = false)
    (hid : ∀ d ∈ st.callLogs, callIdMatches (apiCallId env data) d = false)
    (hname : ∀ d ∈ st.callLogs, d.name ≠ env.newName st.callLogs.length)
    (hlead : ∀ n, env.newLeadName n ≠ "") :
    (apiUpsertCallLog data payload s env (apiUpsertCallLog data payload s env st).2).2.callLogs
      = (apiUpsertCallLog data payload s env st).2.callLogs ∧
    (apiUpsertCallLog data payload s env (apiUpsertCallLog data payload s env st).2).1
      = (apiUpsertCallLog data payload s env st).1 ∧
    (apiUpsertCallLog data payload s env (apiUpsertCallLog data payload s env st).2).2.callLogs.countP
      (callIdMatches (apiCallId env data)) = 1 := by
  have hfind1 : st.callLogs.find? (callIdMatches (apiCallId env data)) = Option.none :=
    List.find?_eq_none.mpr (fun d hd => by simp [hid d hd])
  have h1 := apiUpsert_ins data payload s env st hg hfind1
  have hmatch : callIdMatches (apiCallId env data)
      (⟨env.newName st.callLogs.length, apiDD data payload s env st.leads⟩ : Doc) = true := by
    unfold callIdMatches getField
    rw [apiDD_call_id]
    simp
  have hfind2 : (st.callLogs ++ [(⟨env.newName st.callLogs.length, apiDD data payload s env st.leads⟩ : Doc)]).find?
      (callIdMatches (apiCallId env data))
      = some ⟨env.newName st.callLogs.length, apiDD data payload s env st.leads⟩ := by
    rw [List.find?_append, hfind1]
    simp [hmatch]
  have hnoop : mergeExisting (apiDD data payload s env st.leads)
      (apiDD data payload s env (apiLeads2 data s env st.leads))
      = apiDD data payload s env st.leads := by
    unfold apiDD
    cases hmk : apiMkLead data s env st.leads
    · rw [apiLeads2_of_not_mkLead data s env st.leads hmk]
      exact apiDocData_noop _ _ _ _ _ _ _ _ _ _ _ (Or.inr rfl) (Or.inr rfl)
    · exact apiDocData_noop _ _ _ _ _ _ _ _ _ _ _
        (Or.inl (by rw [apiLd_of_mkLead data s env st.leads hmk]; decide))
        (Or.inl (by rw [apiLn_of_mkLead data s env st.leads hmk]
                    exact storedEmpty_str_of_ne (hlead _)))
  have hA : (apiUpsertCallLog data payload s env st).2 =
      ⟨st.callLogs ++ [⟨env.newName st.callLogs.length, apiDD data payload s env st.leads⟩],
       apiLeads2 data s env st.leads⟩ := by
    rw [h1]
  have hB : (apiUpsertCallLog data payload s env st).1
      = some (env.newName st.callLogs.length) := by
    rw [h1]
  have h2 := apiUpsert_mrg data payload s env
      ⟨st.callLogs ++ [⟨env.newName st.callLogs.length, apiDD data payload s env st.leads⟩],
       apiLeads2 data s env st.leads⟩
      ⟨env.newName st.callLogs.length, apiDD data payload s env st.leads⟩ hg hfind2
  have hC : apiUpsertCallLog data payload s env (apiUpsertCallLog data payload s env st).2
      = (some (env.newName st.callLogs.length),
         ⟨saveDoc (st.callLogs ++ [⟨env.newName st.callLogs.length, apiDD data payload s env st.leads⟩])
            { (⟨env.newName st.callLogs.length, apiDD data payload s env st.leads⟩ : Doc) with
              fields := mergeExisting (apiDD data payload s env st.leads)
                (apiDD data payload s env (apiLeads2 data s env st.leads)) },
          apiLeads2 data s env (apiLeads2 data s env st.leads)⟩) := by
    rw [hA]
    exact h2
  have hD : saveDoc (st.callLogs ++ [⟨env.newName st.callLogs.length, apiDD data payload s env st.leads⟩])
      { (⟨env.newName st.callLogs.length, apiDD data payload s env st.leads⟩ : Doc) with
        fields := mergeExisting (apiDD data payload s env st.leads)
          (apiDD data payload s env (apiLeads2 data s env st.leads)) }
      = st.callLogs ++ [⟨env.newName st.callLogs.length, apiDD data payload s env st.leads⟩] := by
    rw [hnoop]
    exact saveDoc_fresh st.callLogs _ (fun d2 hm => hname d2 hm)
  have hlogs2 : (apiUpsertCallLog data payload s env (apiUpsertCallLog data payload s env st).2).2.callLogs
      = st.callLogs ++ [⟨env.newName st.callLogs.length, apiDD data payload s env st.leads⟩] := by
    rw [hC]
    exact hD
  refine ⟨?_, ?_, ?_⟩
  · rw [hlogs2, hA]
  · rw [hC, hB]
  · rw [hlogs2, List.countP_append,
      List.countP_eq_zero.mpr (fun a ha => by simp [hid a ha])]
    simp [List.countP_cons, hmatch]

/-- C2: applying the upsert twice with the same canonical event (the same
inputs and ambient environment, the event's last-event timestamp included)
yields exactly one stored call-log record for its call id, identical after the
second application, on both ingestion paths. First conjunct: the pull-path
sync.upsert_call_log over a store with no record for the id. Second conjunct:
the webhook-path api._upsert_call_log — when the internal-call gate fires the
event is consistently skipped with the store untouched by both applications,
and otherwise the call-log table after the second application equals the table
after the first, the reported stored id is the same, and exactly one record
carries the call id (lead auto-creation, a collaborator side table outside the
claimed record, is not constrained). Fresh-name hypotheses mirror Frappe's
allocation of unused, non-empty primary names on insert. -/
theorem upsert_idempotent_both :
    (∀ (row : List (String × PyVal)) (s : Settings) (env : Env) (st : List Doc),
      (∀ d ∈ st, callIdMatches (syncCallId row) d = false) →
      (∀ d ∈ st, d.name ≠ env.newName st.length) →
      syncUpsert row s env (syncUpsert row s env st) = syncUpsert row s env st ∧
      (syncUpsert row s env (syncUpsert row s env st)).countP
        (callIdMatches (syncCallId row)) = 1) ∧
    (∀ (data : EventData) (payload : List (String × PyVal)) (s : Settings) (env : Env)
        (st : ApiStore),
      (∀ d ∈ st.callLogs, callIdMatches (apiCallId env data) d = false) →
      (∀ d ∈ st.callLogs, d.name ≠ env.newName st.callLogs.length) →
      (∀ n, env.newLeadName n ≠ "") →
      ((((s.ignore_internal_calls != 0)
          && looksExt (normalizePhone data.from_no (apiCc s))
          && looksExt (normalizePhone data.to_no (apiCc s))) = true →
        apiUpsertCallLog data payload s env st = (Option.none, st) ∧
        apiUpsertCallLog data payload s env (apiUpsertCallLog data payload s env st).2
          = (Option.none, st)) ∧
       (((s.ignore_internal_calls != 0)
          && looksExt (normalizePhone data.from_no (apiCc s))
          && looksExt (normalizePhone data.to_no (apiCc s))) = false →
        (apiUpsertCallLog data payload s env (apiUpsertCallLog data payload s env st).2).2.callLogs
          = (apiUpsertCallLog data payload s env st).2.callLogs ∧
        (apiUpsertCallLog data payload s env (apiUpsertCallLog data payload s env st).2).1
          = (apiUpsertCallLog data payload s env st).1 ∧
        (apiUpsertCallLog data payload s env (apiUpsertCallLog data payload s env st).2).2.callLogs.countP
          (callIdMatches (apiCallId env data)) = 1))) := by
  constructor
  · exact fun row s env st hid hname => syncUpsert_idempotent row s env st hid hname
  · intro data payload s env st hid hname hlead
    constructor
    · intro hg
      have e1 := apiUpsert_gate_eq data payload s env st hg
      refine ⟨e1, ?_⟩
      rw [e1]
      exact apiUpsert_gate_eq data payload s env st hg
    · intro hg
      exact apiUpsert_idem_aux data payload s env st hg hid hname hlead

/-- Witness for C2 at the spec's two-delivery scenario over empty stores: the
pull-path store is identical after a second identical upsert, and on the
webhook path the call-log table is identical after a second identical upsert. -/
theorem upsert_idempotent_both_witness :
    (syncUpsert [("call_id", PyVal.str "c1"), ("src", PyVal.str "0555123456"), ("status", PyVal.str "answered")]
        ⟨1, "", "", 0, 0, 0⟩ defaultEnv
        (syncUpsert [("call_id", PyVal.str "c1"), ("src", PyVal.str "0555123456"), ("status", PyVal.str "answered")]
          ⟨1, "", "", 0, 0, 0⟩ defaultEnv [])
      = syncUpsert [("call_id", PyVal.str "c1"), ("src", PyVal.str "0555123456"), ("status", PyVal.str "answered")]
          ⟨1, "", "", 0, 0, 0⟩ defaultEnv []) ∧
    ((apiUpsertCallLog (extractEvent [("call_id", PyVal.str "c1"), ("from", PyVal.str "0555123456")])
        [("call_id", PyVal.str "c1"), ("from", PyVal.str "0555123456")]
        ⟨1, "", "", 0, 0, 0⟩ defaultEnv
        (apiUpsertCallLog (extractEvent [("call_id", PyVal.str "c1"), ("from", PyVal.str "0555123456")])
          [("call_id", PyVal.str "c1"), ("from", PyVal.str "0555123456")]
          ⟨1, "", "", 0, 0, 0⟩ defaultEnv ⟨[], []⟩).2).2.callLogs
      = (apiUpsertCallLog (extractEvent [("call_id", PyVal.str "c1"), ("from", PyVal.str "0555123456")])
          [("call_id", PyVal.str "c1"), ("from", PyVal.str "0555123456")]
          ⟨1, "", "", 0, 0, 0⟩ defaultEnv ⟨[], []⟩).2.callLogs) := by
  have h := upsert_idempotent_both
  constructor
  · exact (h.1 _ ⟨1, "", "", 0, 0, 0⟩ defaultEnv []
      (by intro d hd; simp at hd) (by intro d hd; simp at hd)).1
  · have hlead0 : ∀ n : Nat, defaultEnv.newLeadName n ≠ "" := by
      intro n h2
      simp only [defaultEnv] at h2
      have h3 := congrArg String.length h2
      rw [String.length_append] at h3
      have h4 : ("lead-" : String).length = 5 := rfl
      have h5 : ("" : String).length = 0 := rfl
      omega
    exact ((h.2 _ _ ⟨1, "", "", 0, 0, 0⟩ defaultEnv ⟨[], []⟩
      (by intro d hd; simp at hd) (by intro d hd; simp at hd) hlead0).2 (by decide)).1
